import Mathlib

/-!
Verification development for the bank AI teller tick engine.

Shallow embedding of the repository's core modules:
- `orchestrator/timeouts.py`  (timer registry: set_timer / clear_timer / check_expired)
- `fsm/guards.py`             (guard / after-effect evaluation over session context)
- `orchestrator/graph.py`     (check_timeouts_node, decide_node of the tick engine)
- `llm_client/LLMDecider.py`  (DecisionProvider contract: degradation, coercion)

Python dicts are modelled as insertion-ordered association lists (Python 3.7+
dict semantics: overwrite keeps the key's position, new keys append, pop
removes).  Machine time is modelled as `Nat` (epoch seconds).  Fallible Python
code (uncaught exceptions) is modelled with `Except String`.
-/

namespace Teller

/-- Python value fragment for session-context fields (scalars stored in `ctx`). -/
inductive PyVal where
  | none
  | bool (b : Bool)
  | int (n : Int)
  | str (s : String)
deriving Repr, DecidableEq

/-- Python truthiness of a context value (`bool(v)`). -/
def pyTruthy : PyVal → Bool
  | .none => false
  | .bool b => b
  | .int n => n != 0
  | .str s => s != ""

/-- Insertion-ordered dict update: overwrite in place if the key exists, else append.
Mirrors CPython dict assignment `d[k] = v`. -/
def setAssoc {α : Type} (l : List (String × α)) (k : String) (v : α) : List (String × α) :=
  if l.any (fun p => p.1 == k) then
    l.map (fun p => if p.1 == k then (k, v) else p)
  else
    l ++ [(k, v)]

/-- Dict lookup `d.get(k)` (first occurrence). -/
def getAssoc {α : Type} (l : List (String × α)) (k : String) : Option α :=
  (l.find? (fun p => p.1 == k)).map (fun p => p.2)

/-- Dict removal `d.pop(k, None)`. -/
def delAssoc {α : Type} (l : List (String × α)) (k : String) : List (String × α) :=
  l.filter (fun p => p.1 != k)

/-- Session context (`ctx` dict of `OrchestratorState`): guard-visible scalar
fields plus the nested `"timers"` map (timer name → expiry).  A timer entry's
value is `Option Nat`: `Option.none` models a Python `None`/null expiry stored
under the name, `some t` an absolute expiry timestamp.  `ensure_timer_ctx`
(which materialises an empty `timers` dict) is the identity in this model,
since an absent and an empty timers dict behave identically. -/
structure Ctx where
  fields : List (String × PyVal) := []
  timers : List (String × Option Nat) := []
deriving Repr, DecidableEq

/-- Python truthiness of a timer map value as used in `if v` / `if timers.get(n):`
(missing key or stored `None` is falsy; a zero timestamp is falsy). -/
def timerTruthy : Option (Option Nat) → Bool
  | Option.none => false
  | some Option.none => false
  | some (some t) => t != 0

/-- timeouts.py `set_timer(ctx, name, secs, now)`: stores `now + secs`,
overwriting any prior value. -/
def set_timer (ctx : Ctx) (name : String) (secs : Nat) (now : Nat) : Ctx :=
  { ctx with timers := setAssoc ctx.timers name (some (now + secs)) }

/-- timeouts.py `clear_timer(ctx, name)`: `timers.pop(name, None)`. -/
def clear_timer (ctx : Ctx) (name : String) : Ctx :=
  { ctx with timers := delAssoc ctx.timers name }

/-- The filter predicate of `check_expired`: `v and now >= v` (a falsy stored
value — null or zero — is never due). -/
def dueAt (now : Nat) : String × Option Nat → Bool
  | (_, Option.none) => false
  | (_, some t) => t != 0 && now ≥ t

/-- timeouts.py `check_expired(ctx, now)`:
`expired = [k for k, v in timers.items() if v and now >= v]; return expired[-1] if expired else None`.
Pure: never removes the expired entry. -/
def check_expired (ctx : Ctx) (now : Nat) : Option String :=
  ((ctx.timers.filter (dueAt now)).getLast?).map (fun p => p.1)

/-! ### Guard / after-effect expression language (fsm/guards.py)

`eval_guard(expr, ctx)` is `bool(eval(expr, {}, {"ctx": proxy(ctx)}))` and
`apply_after(expr, ctx)` is `exec(expr, {}, {"ctx": proxy(ctx)})` — full Python
evaluation over configuration-supplied strings.  `PyExpr`/`PyStmt` embed a
fragment of the expression/statement grammar that Python `eval`/`exec` accepts
here: literals, `ctx.<field>` reads, comparison/boolean/arithmetic operators,
and — because `eval` with an empty globals dict still injects `__builtins__` —
calls to builtin functions (represented by `len`).  Evaluation of a missing
context field raises `AttributeError` (the `_ContextProxy.__getattr__`
contract), modelled as `Except.error`. -/

/-- Binary operators of the embedded Python expression fragment. -/
inductive PyBinOp where
  | add | sub | mul | lt | le | gt | ge | eqOp | neOp
deriving Repr, DecidableEq

/-- Python expression fragment accepted by `eval` in `eval_guard`. -/
inductive PyExpr where
  | lit (v : PyVal)
  | ctxGet (field : String)
  | bin (op : PyBinOp) (a b : PyExpr)
  | andE (a b : PyExpr)
  | orE (a b : PyExpr)
  | notE (a : PyExpr)
  | callLen (a : PyExpr)
deriving Repr, DecidableEq

/-- Statement fragment accepted by `exec` in `apply_after`:
`ctx.f = e`, `ctx.f += e`, and sequencing with `;`. -/
inductive PyStmt where
  | assign (field : String) (e : PyExpr)
  | augAdd (field : String) (e : PyExpr)
  | seq (a b : PyStmt)
deriving Repr, DecidableEq

/-- Python binary-operator semantics on the value fragment (TypeError on
unsupported operand combinations). -/
def evalBin (op : PyBinOp) (a b : PyVal) : Except String PyVal :=
  match op, a, b with
  | .add, .int x, .int y => .ok (.int (x + y))
  | .add, .str x, .str y => .ok (.str (x ++ y))
  | .sub, .int x, .int y => .ok (.int (x - y))
  | .mul, .int x, .int y => .ok (.int (x * y))
  | .lt, .int x, .int y => .ok (.bool (x < y))
  | .le, .int x, .int y => .ok (.bool (x ≤ y))
  | .gt, .int x, .int y => .ok (.bool (x > y))
  | .ge, .int x, .int y => .ok (.bool (x ≥ y))
  | .eqOp, x, y => .ok (.bool (x == y))
  | .neOp, x, y => .ok (.bool (x != y))
  | _, _, _ => .error "TypeError: unsupported operand types"

/-- Evaluation of the embedded Python expression fragment over a session
context, as performed by `eval(expr, {}, ctx)` in `eval_guard`. -/
def evalPy : PyExpr → Ctx → Except String PyVal
  | .lit v, _ => .ok v
  | .ctxGet f, ctx =>
      match getAssoc ctx.fields f with
      | some v => .ok v
      | Option.none => .error ("AttributeError: " ++ f)
  | .bin op a b, ctx => do
      let va ← evalPy a ctx
      let vb ← evalPy b ctx
      evalBin op va vb
  | .andE a b, ctx => do
      let va ← evalPy a ctx
      if pyTruthy va then evalPy b ctx else .ok va
  | .orE a b, ctx => do
      let va ← evalPy a ctx
      if pyTruthy va then .ok va else evalPy b ctx
  | .notE a, ctx => do
      let va ← evalPy a ctx
      .ok (.bool (!pyTruthy va))
  | .callLen a, ctx => do
      let va ← evalPy a ctx
      match va with
      | .str s => .ok (.int s.length)
      | _ => .error "TypeError: object has no len"

/-- A guard/effect expression is within the restricted capability the spec
describes (named `ctx` field access plus comparison, boolean, and arithmetic
operators) iff it contains no function call. -/
def restrictedCap : PyExpr → Bool
  | .lit _ => true
  | .ctxGet _ => true
  | .bin _ a b => restrictedCap a && restrictedCap b
  | .andE a b => restrictedCap a && restrictedCap b
  | .orE a b => restrictedCap a && restrictedCap b
  | .notE a => restrictedCap a
  | .callLen _ => false

/-- guards.py `eval_guard(expr, ctx)`: empty/absent expression is `True`;
otherwise `bool(eval(expr, ...))`.  An evaluation exception propagates. -/
def eval_guard (expr : Option PyExpr) (ctx : Ctx) : Except String Bool :=
  match expr with
  | Option.none => .ok true
  | some e => (evalPy e ctx).map pyTruthy

/-- Execution of the embedded statement fragment over the context
(`_ContextProxy.__setattr__` writes the field into the dict). -/
def execPy : PyStmt → Ctx → Except String Ctx
  | .assign f e, ctx => do
      let v ← evalPy e ctx
      .ok { ctx with fields := setAssoc ctx.fields f v }
  | .augAdd f e, ctx => do
      let cur ← evalPy (.ctxGet f) ctx
      let v ← evalPy e ctx
      let w ← evalBin .add cur v
      .ok { ctx with fields := setAssoc ctx.fields f w }
  | .seq a b, ctx => do
      let ctx1 ← execPy a ctx
      execPy b ctx1

/-- guards.py `apply_after(expr, ctx)`: empty/absent expression is a no-op;
otherwise `exec(expr, ...)` mutating the context. -/
def apply_after (expr : Option PyStmt) (ctx : Ctx) : Except String Ctx :=
  match expr with
  | Option.none => .ok ctx
  | some st => execPy st ctx

/-! ### JSON values (Decision dicts of llm_client/LLMDecider.py) -/

/-- JSON value as produced by `response.json()` / `json.loads`; objects are
insertion-ordered association lists. -/
inductive JValue where
  | null
  | bool (b : Bool)
  | num (n : Int)
  | str (s : String)
  | arr (xs : List JValue)
  | obj (fields : List (String × JValue))
deriving Repr

/-! ### Orchestrator state (orchestrator/state.py, orchestrator/graph.py) -/

/-- The tick input dict (`s["input"]`): an all-`none` record models the empty
dict `{}`. -/
structure Input where
  channel : Option String := Option.none
  signal : Option String := Option.none
  payload : Option String := Option.none
deriving Repr, DecidableEq

/-- A system-channel input `{"channel": "system", "signal": sg}` as written by
`check_timeouts_node` / `run_actions_node`. -/
def sysInput (sg : String) : Input :=
  { channel := some "system", signal := some sg }

/-- An action dict `{"type": ..., "name": ..., "args": ...}`. -/
structure UAction where
  type : String
  name : String
  args : List (String × PyVal) := []
deriving Repr, DecidableEq

/-- The default recovery action of the unmatched-transition branch:
`{"type": "ui", "name": "back_home", "args": {}}`. -/
def backHomeAction : UAction := { type := "ui", name := "back_home", args := [] }

/-- `OrchestratorState` (TypedDict, total=False).  `decision` is the Decision
dict (empty list models an absent/`{}` decision, matching
`s.get("decision", {})`); `now` = 0 models an absent/falsy timestamp, matching
`s.get("now") or time.time()`. -/
structure OState where
  state : String
  decision : List (String × JValue) := []
  input : Input := {}
  actions : List UAction := []
  ctx : Ctx := {}
  now : Nat := 0

/-- Dict lookup on a JSON object's fields. -/
def jGet (fields : List (String × JValue)) (k : String) : Option JValue :=
  getAssoc fields k

/-- The Decision's intent as a rule-table key:
`s.get("decision", {}).get("intent")`.  Rule-table keys are strings, so a
missing or non-string intent matches no key. -/
def intentKey (decision : List (String × JValue)) : Option String :=
  match jGet decision "intent" with
  | some (.str i) => some i
  | _ => Option.none

/-! ### Transition rules (fsm/rules.yaml schema as consumed by decide_node) -/

/-- A rule's fallback transition (`fallback.get("actions", [])`,
`fallback.get("to", st)`). -/
structure Fallback where
  actions : List UAction := []
  «to» : Option String := Option.none
deriving Repr, DecidableEq

/-- A transition rule (`trans.get("guard")`, `trans.get("after")`,
`trans.get("actions", [])`, `trans.get("to", st)`, `trans.get("fallback")`). -/
structure Rule where
  guard : Option PyExpr := Option.none
  after : Option PyStmt := Option.none
  actions : List UAction := []
  «to» : Option String := Option.none
  fallback : Option Fallback := Option.none
deriving Repr, DecidableEq

/-- The rule table `RULES["states"]`: state name → trigger key → rule. -/
def RuleTable := List (String × List (String × Rule))

/-- The timeout table `RULES["timeouts"]`: timer name → seconds. -/
def TimeoutTable := List (String × Nat)

/-- `RULES.get("states", {}).get(st, {})`. -/
def stateRulesOf (rules : RuleTable) (st : String) : List (String × Rule) :=
  (getAssoc rules st).getD []

/-- Transition resolution of `decide_node` (graph.py lines 116-124):
signal key first (`if signal and signal in state_rules`), then the Decision's
intent key, then the reserved `_auto` key. -/
def resolve_trans (state_rules : List (String × Rule))
    (signal : Option String) (intent : Option String) : Option Rule :=
  let bySignal : Option Rule :=
    match signal with
    | some sg => if sg != "" then getAssoc state_rules sg else Option.none
    | Option.none => Option.none
  match bySignal with
  | some r => some r
  | Option.none =>
      match (match intent with
             | some i => getAssoc state_rules i
             | Option.none => Option.none) with
      | some r => some r
      | Option.none => getAssoc state_rules "_auto"

/-- The OTP idle-timer coupling at the end of `decide_node` (graph.py lines
151-157): arm `OTP_no_input` when entering `OTP` from elsewhere (if the
timeout table holds a truthy duration), clear it when leaving `OTP` (if the
timer holds a truthy value). -/
def otpCouple (timeouts : TimeoutTable) (st next : String) (now : Nat)
    (ctx : Ctx) : Ctx :=
  if st != next && next == "OTP" then
    match getAssoc timeouts "OTP_no_input" with
    | some idle => if idle != 0 then set_timer ctx "OTP_no_input" idle now else ctx
    | Option.none => ctx
  else if st == "OTP" && next != "OTP" then
    if timerTruthy (getAssoc ctx.timers "OTP_no_input") then
      clear_timer ctx "OTP_no_input"
    else ctx
  else ctx

/-- graph.py `decide_node(s)`: resolve the transition, evaluate the guard,
apply fallback / primary / after-effect semantics, couple the OTP idle timer,
and set the new state.  An exception inside `eval_guard` / `apply_after`
propagates out as `Except.error`. -/
def decide_node (rules : RuleTable) (timeouts : TimeoutTable)
    (s : OState) : Except String OState :=
  let st := s.state
  let state_rules := stateRulesOf rules st
  match resolve_trans state_rules s.input.signal (intentKey s.decision) with
  | Option.none =>
      .ok { s with actions := [backHomeAction], state := "FAILED" }
  | some trans0 =>
      match eval_guard trans0.guard s.ctx with
      | .error e => .error e
      | .ok false =>
          match trans0.fallback with
          | some fb =>
              .ok { s with actions := fb.actions, state := fb.«to».getD st }
          | Option.none =>
              .ok { s with actions := trans0.actions, state := st }
      | .ok true =>
          match apply_after trans0.after s.ctx with
          | .error e => .error e
          | .ok ctx1 =>
              let next := trans0.«to».getD st
              let ctx2 := otpCouple timeouts st next s.now ctx1
              .ok { s with actions := trans0.actions, ctx := ctx2, state := next }

/-- The timer arm/clear prologue of `check_timeouts_node` (graph.py lines
60-68): in state `OTP`, arm `OTP_no_input` if no such entry exists and the
timeout table holds a truthy duration; outside `OTP`, clear it if it holds a
truthy value. -/
def otpArmPhase (timeouts : TimeoutTable) (st : String) (ctx : Ctx)
    (now : Nat) : Ctx :=
  if st == "OTP" then
    if (ctx.timers.find? (fun p => p.1 == "OTP_no_input")).isNone then
      match getAssoc timeouts "OTP_no_input" with
      | some idle => if idle != 0 then set_timer ctx "OTP_no_input" idle now else ctx
      | Option.none => ctx
    else ctx
  else
    if timerTruthy (getAssoc ctx.timers "OTP_no_input") then
      clear_timer ctx "OTP_no_input"
    else ctx

/-- The effective tick timestamp: `now = s.get("now") or time.time()` (`wall`
stands for the wall clock consulted when the stored timestamp is falsy). -/
def nowOf (wall : Nat) (s : OState) : Nat :=
  if s.now != 0 then s.now else wall

/-- graph.py `check_timeouts_node(s)`: arm/clear the OTP idle timer, then
surface at most one expired timer.  `if not expired: return s` is a Python
truthiness test on `str | None`: both no expiry and an expired timer whose
*name* is the empty string early-return with nothing cleared.  Otherwise the
three known timer names map to their system-channel timeout signals (any
other expired name leaves the input untouched) and the consumed expiry is
cleared from the context. -/
def check_timeouts_node (timeouts : TimeoutTable) (wall : Nat)
    (s : OState) : OState :=
  let now := nowOf wall s
  let s := { s with now := now }
  let ctx := otpArmPhase timeouts s.state s.ctx now
  match check_expired ctx now with
  | Option.none => { s with ctx := ctx }
  | some expired =>
      if expired = "" then { s with ctx := ctx }
      else
        let input :=
          if expired == "PRINTING" then sysInput "_timeout_PRINTING"
          else if expired == "CARD_PICKUP" then sysInput "_timeout_CARD_PICKUP"
          else if expired == "OTP_no_input" then sysInput "_timeout_no_input"
          else s.input
        { s with input := input, ctx := clear_timer ctx expired }

/-! ### DecisionProvider (llm_client/LLMDecider.py — the decider instantiated
by the engine)

`decide` is embedded from the point where the external world has answered:
`postResult` is the outcome of `self._post_llm(...)` (`Except.error` = the
transport failure caught at the `try`/`except`, after tenacity retries), and
`extract` stands for `self._extract_json` (regex + `json.loads`; returns the
extracted JSON object or raises).  The result is the returned Decision dict;
`Except.error` models an uncaught Python exception escaping `decide`. -/

/-- The transport-failure canned Decision (LLMDecider.py lines 130-135). -/
def cannedTransport (err : String) : JValue :=
  .obj [("intent", .str "cancel"), ("params", .obj []),
        ("response", .obj [("type", .str "text"),
                           ("content", .str "Xin lỗi, dịch vụ tạm thời gián đoạn.")]),
        ("meta", .obj [("error", .str err)])]

/-- The invalid-output canned Decision (parse failure, lines 146-151). -/
def cannedInvalid (err : String) : JValue :=
  .obj [("intent", .str "cancel"), ("params", .obj []),
        ("response", .obj [("type", .str "text"),
                           ("content", .str "Xin lỗi, đầu ra không hợp lệ.")]),
        ("meta", .obj [("error", .str err)])]

/-- The canned Decision for a non-object strict-mode decision (lines 155-160). -/
def cannedNonObject : JValue := cannedInvalid "non-object decision"

/-- The canned Decision for a strict-mode schema violation (lines 167-172);
the meta error carries the stringified `ValidationError`. -/
def cannedSchema : JValue := cannedInvalid "schema: ValidationError"

/-- `resp_text = data.get("response", "") if isinstance(data, dict) else ""`. -/
def respTextOf (data : JValue) : JValue :=
  match data with
  | .obj fs => (jGet fs "response").getD (.str "")
  | _ => .str ""

/-- `decision = self._extract_json(resp_text) if isinstance(resp_text, str)
else resp_text`, with the surrounding `try`/`except` turning an extraction
failure into the invalid-output canned Decision. -/
def rawDecision (respText : JValue)
    (extract : String → Except String JValue) : JValue :=
  match respText with
  | .str s =>
      match extract s with
      | .ok d => d
      | .error e => cannedInvalid e
  | other => other

/-- jsonschema validation against `self.schema` (LLMDecider.py lines 29-47):
required `intent : string`, `params : object`, `response : object` with
required `type : string` and `content : string`; `meta`, if present, must be
an object.  (This schema does not constrain `response.type` to
text/none.) -/
def validateDecision (d : JValue) : Bool :=
  match d with
  | .obj fs =>
      (match jGet fs "intent" with | some (.str _) => true | _ => false) &&
      (match jGet fs "params" with | some (.obj _) => true | _ => false) &&
      (match jGet fs "response" with
       | some (.obj rs) =>
           (match jGet rs "type" with | some (.str _) => true | _ => false) &&
           (match jGet rs "content" with | some (.str _) => true | _ => false)
       | _ => false) &&
      (match jGet fs "meta" with
       | some (.obj _) => true
       | some _ => false
       | Option.none => true)
  | _ => false

/-- The strict-mode block (lines 153-177): replace a non-object decision or a
schema violation with a canned Decision; otherwise default `params` to an
empty object when missing/non-object and force a disallowed intent (with a
non-empty allowlist) to `"cancel"`.  With strict mode off the decision passes
through untouched. -/
def strictStage (strict : Bool) (allowed : List String) (d : JValue) : JValue :=
  if strict then
    match d with
    | .obj fs =>
        if validateDecision (.obj fs) then
          let fs1 :=
            match jGet fs "params" with
            | some (.obj _) => fs
            | _ => setAssoc fs "params" (.obj [])
          let intentAllowed :=
            match jGet fs1 "intent" with
            | some (.str i) => allowed.contains i
            | _ => false
          if !allowed.isEmpty && !intentAllowed then
            .obj (setAssoc fs1 "intent" (.str "cancel"))
          else .obj fs1
        else cannedSchema
    | _ => cannedNonObject
  else d

/-- The response-stripping epilogue (lines 179-184):
`response_block = decision.get("response")` — an `AttributeError` if the
decision is not a dict (reachable only with strict mode off) — then overwrite
the response's `type`/`content` with `"none"`/`""` (replacing a non-dict
response block wholesale). -/
def finalizeResponse (d : JValue) : Except String JValue :=
  match d with
  | .obj fs =>
      match jGet fs "response" with
      | some (.obj rs) =>
          .ok (.obj (setAssoc fs "response"
            (.obj (setAssoc (setAssoc rs "type" (.str "none")) "content" (.str "")))))
      | _ =>
          .ok (.obj (setAssoc fs "response"
            (.obj [("type", .str "none"), ("content", .str "")])))
  | _ => .error "AttributeError: object has no attribute get"

/-- LLMDecider.py `decide` from the transport call onward: the transport
failure early-returns the canned service-interruption Decision; otherwise the
response text is extracted, strict-mode validation/coercion is applied, and
the response block is stripped. -/
def LLMDecider_decide (strict : Bool) (allowed : List String)
    (postResult : Except String JValue)
    (extract : String → Except String JValue) : Except String JValue :=
  match postResult with
  | .error e => .ok (cannedTransport e)
  | .ok data =>
      finalizeResponse (strictStage strict allowed (rawDecision (respTextOf data) extract))

/-! ### Helper lemmas on the dict model -/

theorem getAssoc_cons {α : Type} (p : String × α) (t : List (String × α)) (k : String) :
    getAssoc (p :: t) k = if (p.1 == k) = true then some p.2 else getAssoc t k := by
  by_cases h : (p.1 == k) = true
  · simp [getAssoc, List.find?_cons, h]
  · simp only [Bool.not_eq_true] at h
    simp [getAssoc, List.find?_cons, h]

theorem getAssoc_map_set {α : Type} (l : List (String × α)) (k : String) (v : α)
    (h : l.any (fun p => p.1 == k) = true) :
    getAssoc (l.map (fun p => if (p.1 == k) = true then (k, v) else p)) k = some v := by
  induction l with
  | nil => simp at h
  | cons p t ih =>
      by_cases hp : (p.1 == k) = true
      · have hp' : p.1 = k := by simpa [beq_iff_eq] using hp
        simp [getAssoc_cons, hp, hp']
      · simp only [List.any_cons, Bool.or_eq_true] at h
        rcases h with h | h
        · exact absurd h hp
        · have hp' : p.1 ≠ k := by simpa [beq_iff_eq] using hp
          have iht := ih h
          simp only [beq_iff_eq] at iht
          simp [List.map_cons, getAssoc_cons, hp', iht]

theorem getAssoc_map_set_ne {α : Type} (l : List (String × α)) (k k' : String) (v : α)
    (h : (k' == k) = false) :
    getAssoc (l.map (fun p => if (p.1 == k) = true then (k, v) else p)) k' = getAssoc l k' := by
  induction l with
  | nil => rfl
  | cons p t ih =>
      by_cases hp : (p.1 == k) = true
      · have hp' : p.1 = k := by simpa [beq_iff_eq] using hp
        have hkk : k ≠ k' := by
          simp only [beq_eq_false_iff_ne] at h
          exact fun e => h e.symm
        have hpk : p.1 ≠ k' := by rw [hp']; exact hkk
        have iht := ih
        simp only [beq_iff_eq] at iht
        simp [List.map_cons, getAssoc_cons, hp', hkk, hpk, iht]
      · have hp' : p.1 ≠ k := by simpa [beq_iff_eq] using hp
        have iht := ih
        simp only [beq_iff_eq] at iht
        simp [List.map_cons, getAssoc_cons, hp', iht]

theorem getAssoc_setAssoc_self {α : Type} (l : List (String × α)) (k : String) (v : α) :
    getAssoc (setAssoc l k v) k = some v := by
  unfold setAssoc
  by_cases h : l.any (fun p => p.1 == k) = true
  · simpa [h] using getAssoc_map_set l k v h
  · simp only [Bool.not_eq_true] at h
    simp only [h, Bool.false_eq_true, if_false]
    have hnone : (l.find? (fun p => p.1 == k)) = none := by
      rw [List.find?_eq_none]
      intro x hx
      exact fun hxk => by simp [List.any_eq_false.mp h x hx] at hxk
    simp [getAssoc, List.find?_append, hnone, List.find?_cons]

theorem getAssoc_setAssoc_ne {α : Type} (l : List (String × α)) (k k' : String) (v : α)
    (h : (k' == k) = false) :
    getAssoc (setAssoc l k v) k' = getAssoc l k' := by
  unfold setAssoc
  by_cases ha : l.any (fun p => p.1 == k) = true
  · simpa [ha] using getAssoc_map_set_ne l k k' v h
  · simp only [Bool.not_eq_true] at ha
    simp only [ha, Bool.false_eq_true, if_false]
    have hkk : (k == k') = false := by
      simp only [beq_eq_false_iff_ne] at h ⊢
      exact fun e => h e.symm
    simp [getAssoc, List.find?_append, List.find?_cons, hkk, Option.or_none]

theorem mem_setAssoc {α : Type} {l : List (String × α)} {k : String} {v : α}
    {p : String × α} (h : p ∈ setAssoc l k v) :
    p = (k, v) ∨ (p ∈ l ∧ (p.1 == k) = false) := by
  unfold setAssoc at h
  by_cases ha : l.any (fun q => q.1 == k) = true
  · simp only [ha, if_true] at h
    rcases List.mem_map.mp h with ⟨q, hq, hfq⟩
    by_cases hqk : (q.1 == k) = true
    · left; rw [if_pos hqk] at hfq; exact hfq.symm
    · right
      rw [if_neg hqk] at hfq
      subst hfq
      exact ⟨hq, by simpa using hqk⟩
  · simp only [Bool.not_eq_true] at ha
    simp only [ha, Bool.false_eq_true, if_false, List.mem_append, List.mem_singleton] at h
    rcases h with h | h
    · right
      refine ⟨h, ?_⟩
      have := List.any_eq_false.mp ha p h
      simpa using this
    · left; exact h

theorem getAssoc_delAssoc_self {α : Type} (l : List (String × α)) (k : String) :
    getAssoc (delAssoc l k) k = Option.none := by
  have : (delAssoc l k).find? (fun p => p.1 == k) = Option.none := by
    rw [List.find?_eq_none]
    intro x hx
    have := (List.mem_filter.mp hx).2
    simp only [bne_iff_ne, ne_eq] at this
    simpa using this
  simp [getAssoc, this]

theorem getAssoc_delAssoc_ne {α : Type} (l : List (String × α)) (k k' : String)
    (h : (k' == k) = false) :
    getAssoc (delAssoc l k) k' = getAssoc l k' := by
  induction l with
  | nil => rfl
  | cons p t ih =>
      by_cases hp : p.1 = k
      · have hpk' : p.1 ≠ k' := by
          rw [hp]
          simp only [beq_eq_false_iff_ne] at h
          exact fun e => h e.symm
        have hbne : (p.1 != k) = false := by simp [hp]
        simp only [delAssoc, List.filter_cons, hbne, Bool.false_eq_true, if_false]
        rw [getAssoc_cons]
        have : (p.1 == k') = false := by simpa [beq_eq_false_iff_ne] using hpk'
        simp only [this, Bool.false_eq_true, if_false]
        simpa [delAssoc] using ih
      · have hbne : (p.1 != k) = true := by simp [bne_iff_ne, hp]
        simp only [delAssoc, List.filter_cons, hbne, if_true]
        rw [getAssoc_cons, getAssoc_cons]
        by_cases hq : (p.1 == k') = true
        · simp [hq]
        · simp only [hq, Bool.false_eq_true, if_false]
          simpa [delAssoc] using ih

theorem mem_delAssoc {α : Type} {l : List (String × α)} {k : String}
    {p : String × α} (h : p ∈ delAssoc l k) : p ∈ l ∧ (p.1 == k) = false := by
  have := List.mem_filter.mp h
  refine ⟨this.1, ?_⟩
  have := this.2
  simpa [bne_iff_ne, beq_eq_false_iff_ne] using this

theorem dueAt_false_of_notTruthy {v : Option Nat} (now : Nat) (k : String)
    (h : timerTruthy (some v) = false) : dueAt now (k, v) = false := by
  cases v with
  | none => rfl
  | some t =>
      simp only [timerTruthy] at h
      simp [dueAt, h]

theorem check_expired_eq_none {ctx : Ctx} {now : Nat}
    (h : ∀ p ∈ ctx.timers, dueAt now p = false) :
    check_expired ctx now = Option.none := by
  have : ctx.timers.filter (dueAt now) = [] :=
    List.filter_eq_nil_iff.mpr (fun p hp => by simp [h p hp])
  simp [check_expired, this]

theorem check_expired_isSome_of_due {ctx : Ctx} {now : Nat} {k : String} {t : Nat}
    (hmem : (k, some t) ∈ ctx.timers) (ht : t ≠ 0) (hle : t ≤ now) :
    (check_expired ctx now).isSome = true := by
  have hdue : dueAt now (k, some t) = true := by simp [dueAt, ht, hle]
  have hfmem : (k, some t) ∈ ctx.timers.filter (dueAt now) :=
    List.mem_filter.mpr ⟨hmem, hdue⟩
  have hne : ctx.timers.filter (dueAt now) ≠ [] := by
    intro he; rw [he] at hfmem; exact absurd hfmem (List.not_mem_nil _)
  have := List.getLast?_isSome.mpr hne
  simp only [check_expired, Option.isSome_map']
  exact this

theorem check_expired_sound {ctx : Ctx} {now : Nat} {k : String}
    (h : check_expired ctx now = some k) :
    ∃ t, (k, some t) ∈ ctx.timers ∧ t ≠ 0 ∧ t ≤ now := by
  simp only [check_expired, Option.map_eq_some'] at h
  rcases h with ⟨p, hp, hpk⟩
  have hmemf : p ∈ ctx.timers.filter (dueAt now) := by
    have hne : ctx.timers.filter (dueAt now) ≠ [] := by
      intro he; rw [he] at hp; simp at hp
    rw [List.getLast?_eq_getLast _ hne] at hp
    have hmem := List.getLast_mem hne
    rwa [Option.some_inj.mp hp] at hmem
  have hmem := List.mem_filter.mp hmemf
  rcases p with ⟨k0, v0⟩
  cases v0 with
  | none => simp [dueAt] at hmem
  | some t =>
      have hd := hmem.2
      simp only [dueAt, Bool.and_eq_true, bne_iff_ne, ne_eq, decide_eq_true_eq] at hd
      simp only at hpk
      subst hpk
      exact ⟨t, hmem.1, hd.1, hd.2⟩

/-! ### Projections on Decision dicts and further helper lemmas -/

/-- `decision.get("intent")` on a returned Decision value. -/
def decisionIntent (d : JValue) : Option JValue :=
  match d with
  | .obj fs => jGet fs "intent"
  | _ => Option.none

/-- `decision.get("params")` on a returned Decision value. -/
def decisionParams (d : JValue) : Option JValue :=
  match d with
  | .obj fs => jGet fs "params"
  | _ => Option.none

/-- `decision.get("response")` on a returned Decision value. -/
def decisionResponse (d : JValue) : Option JValue :=
  match d with
  | .obj fs => jGet fs "response"
  | _ => Option.none

/-- `decision.get("meta")` on a returned Decision value. -/
def decisionMeta (d : JValue) : Option JValue :=
  match d with
  | .obj fs => jGet fs "meta"
  | _ => Option.none

theorem self_mem_setAssoc {α : Type} (l : List (String × α)) (k : String) (v : α) :
    (k, v) ∈ setAssoc l k v := by
  unfold setAssoc
  by_cases ha : l.any (fun q => q.1 == k) = true
  · simp only [ha, if_true]
    rcases List.any_eq_true.mp ha with ⟨q, hq, hqk⟩
    refine List.mem_map.mpr ⟨q, hq, ?_⟩
    simp only [hqk, if_true]
  · simp only [Bool.not_eq_true] at ha
    simp [ha]

theorem finalizeResponse_obj_ok (fs : List (String × JValue)) :
    ∃ d, finalizeResponse (.obj fs) = .ok d := by
  unfold finalizeResponse
  dsimp only
  rcases h : jGet fs "response" with _ | v
  · exact ⟨_, rfl⟩
  · cases v <;> exact ⟨_, rfl⟩

theorem finalizeResponse_strips {d d' : JValue} (h : finalizeResponse d = .ok d') :
    ∃ fs rs, d' = .obj fs ∧ jGet fs "response" = some (.obj rs) ∧
      jGet rs "type" = some (.str "none") ∧ jGet rs "content" = some (.str "") := by
  cases d with
  | obj fs =>
      unfold finalizeResponse at h
      dsimp only at h
      rcases hr : jGet fs "response" with _ | v
      · rw [hr] at h
        refine ⟨_, [("type", .str "none"), ("content", .str "")],
          (Except.ok.inj h).symm, ?_, rfl, rfl⟩
        exact getAssoc_setAssoc_self fs "response" _
      · cases v with
        | obj rs =>
            rw [hr] at h
            refine ⟨_, setAssoc (setAssoc rs "type" (.str "none")) "content" (.str ""),
              (Except.ok.inj h).symm, ?_, ?_, ?_⟩
            · exact getAssoc_setAssoc_self fs "response" _
            · simp only [jGet]
              rw [getAssoc_setAssoc_ne _ "content" "type" _ (by decide)]
              exact getAssoc_setAssoc_self rs "type" _
            · exact getAssoc_setAssoc_self _ "content" _
        | null =>
            rw [hr] at h
            refine ⟨_, [("type", .str "none"), ("content", .str "")],
              (Except.ok.inj h).symm, ?_, rfl, rfl⟩
            exact getAssoc_setAssoc_self fs "response" _
        | bool b =>
            rw [hr] at h
            refine ⟨_, [("type", .str "none"), ("content", .str "")],
              (Except.ok.inj h).symm, ?_, rfl, rfl⟩
            exact getAssoc_setAssoc_self fs "response" _
        | num n =>
            rw [hr] at h
            refine ⟨_, [("type", .str "none"), ("content", .str "")],
              (Except.ok.inj h).symm, ?_, rfl, rfl⟩
            exact getAssoc_setAssoc_self fs "response" _
        | str s =>
            rw [hr] at h
            refine ⟨_, [("type", .str "none"), ("content", .str "")],
              (Except.ok.inj h).symm, ?_, rfl, rfl⟩
            exact getAssoc_setAssoc_self fs "response" _
        | arr xs =>
            rw [hr] at h
            refine ⟨_, [("type", .str "none"), ("content", .str "")],
              (Except.ok.inj h).symm, ?_, rfl, rfl⟩
            exact getAssoc_setAssoc_self fs "response" _
  | null => exact absurd h (by simp [finalizeResponse])
  | bool b => exact absurd h (by simp [finalizeResponse])
  | num n => exact absurd h (by simp [finalizeResponse])
  | str s => exact absurd h (by simp [finalizeResponse])
  | arr xs => exact absurd h (by simp [finalizeResponse])

theorem strictStage_true_obj (allowed : List String) (d : JValue) :
    ∃ fs, strictStage true allowed d = .obj fs := by
  unfold strictStage
  cases d with
  | obj fs =>
      by_cases hv : validateDecision (.obj fs) = true
      · simp only [hv, if_true]
        by_cases hc : (!allowed.isEmpty &&
            !(match jGet (match jGet fs "params" with
                          | some (.obj _) => fs
                          | _ => setAssoc fs "params" (.obj [])) "intent" with
              | some (.str i) => allowed.contains i
              | _ => false)) = true
        · simp only [hc, if_true]; exact ⟨_, rfl⟩
        · simp only [Bool.not_eq_true] at hc
          simp only [hc, Bool.false_eq_true, if_false]; exact ⟨_, rfl⟩
      · simp only [Bool.not_eq_true] at hv
        simp only [hv, Bool.false_eq_true, if_false]
        exact ⟨_, rfl⟩
  | null => exact ⟨_, rfl⟩
  | bool b => exact ⟨_, rfl⟩
  | num n => exact ⟨_, rfl⟩
  | str s => exact ⟨_, rfl⟩
  | arr xs => exact ⟨_, rfl⟩

/-! ### Claim theorems -/

/-- C3: transport-failure degradation.  For every call to the
DecisionProvider's `decide` in which the HTTP call fails after retrying
(`_post_llm` raised), `decide` returns — never raises — the canned Decision
with intent `"cancel"`, empty params, a response of type `"text"`, and meta
carrying the error. -/
theorem C3_transport_failure_degradation (strict : Bool) (allowed : List String)
    (extract : String → Except String JValue) (e : String) :
    LLMDecider_decide strict allowed (.error e) extract =
      .ok (.obj [("intent", .str "cancel"), ("params", .obj []),
                 ("response", .obj [("type", .str "text"),
                                    ("content", .str "Xin lỗi, dịch vụ tạm thời gián đoạn.")]),
                 ("meta", .obj [("error", .str e)])]) := rfl

/-- C9: for every call to `LLMDecider.decide` that does not return via the
transport-failure early return (i.e. the HTTP call succeeded), the returned
Decision's response block is exactly `type = "none"`, `content = ""` — the
provider-supplied response text is discarded even for successfully parsed,
schema-valid decisions. -/
theorem C9_response_always_stripped (strict : Bool) (allowed : List String)
    (data : JValue) (extract : String → Except String JValue) (d : JValue)
    (h : LLMDecider_decide strict allowed (.ok data) extract = .ok d) :
    ∃ rs, decisionResponse d = some (.obj rs) ∧
      jGet rs "type" = some (.str "none") ∧ jGet rs "content" = some (.str "") := by
  have h' : finalizeResponse (strictStage strict allowed (rawDecision (respTextOf data) extract))
      = .ok d := h
  rcases finalizeResponse_strips h' with ⟨fs, rs, hd, hresp, hty, hco⟩
  exact ⟨rs, by rw [hd]; exact hresp, hty, hco⟩

/-- C9 witness: a concrete successful-transport call (whose body carries no
JSON) returns a Decision whose response is the stripped none/empty block. -/
theorem C9_response_always_stripped_witness :
    ∃ d, LLMDecider_decide true [] (.ok (.obj [])) (fun _ => .error "x") = .ok d ∧
      ∃ rs, decisionResponse d = some (.obj rs) ∧
        jGet rs "type" = some (.str "none") ∧ jGet rs "content" = some (.str "") :=
  ⟨_, rfl, C9_response_always_stripped true [] (.obj []) (fun _ => .error "x") _ rfl⟩

/-- C7 counterexample: the claim says guard evaluation exposes only named
field read/write on ctx plus comparison/boolean/arithmetic operators and
never a general-purpose code-execution capability.  But `eval_guard` passes
the expression to Python `eval`, which also accepts and executes builtin
function calls (here `len("abc")`): a guard outside the restricted capability
evaluates successfully. -/
theorem C7_counterexample :
    restrictedCap (.callLen (.lit (.str "abc"))) = false ∧
    eval_guard (some (.callLen (.lit (.str "abc")))) {} = .ok true :=
  ⟨rfl, rfl⟩

/-- C7 amended: an empty/absent guard is always true and an empty/absent
effect is a no-op, but guard/effect evaluation is full Python `eval`/`exec`
over the session context — not restricted to named field read/write plus
comparison/boolean/arithmetic operators: an expression outside that
restricted capability (a builtin function call) still evaluates
successfully. -/
theorem C7_guard_evaluation_amended :
    (∀ ctx : Ctx, eval_guard Option.none ctx = .ok true) ∧
    (∀ ctx : Ctx, apply_after Option.none ctx = .ok ctx) ∧
    (∃ e : PyExpr, restrictedCap e = false ∧ ∃ b, eval_guard (some e) {} = .ok b) :=
  ⟨fun _ => rfl, fun _ => rfl, ⟨.callLen (.lit (.str "abc")), rfl, true, rfl⟩⟩

/-- C8 counterexample: the claim says a timer entry with no value counts as
expired and `checkExpired` returns its name.  But `check_expired` filters with
`if v and now >= v`, so an entry holding a null expiry is never reported:
on a context whose sole timer `"X"` has no value, `check_expired` returns
none, not `"X"`. -/
theorem C8_counterexample :
    check_expired { timers := [("X", Option.none)] } 100 = Option.none ∧
    check_expired { timers := [("X", Option.none)] } 100 ≠ some "X" :=
  ⟨rfl, fun h => Option.noConfusion ((rfl : check_expired { timers := [("X", Option.none)] } 100 = Option.none) ▸ h)⟩

/-- C8 amended: a timer entry with a truthy (non-null, non-zero) expiry ≤ now
is expired: whenever such an entry exists `checkExpired` returns the name of
one such entry, and every name it returns holds a truthy past-due expiry
(entries with no value are never reported).  Clearing removes the entry
entirely and re-arming overwrites the expiry. -/
theorem C8_timer_expiry_amended :
    (∀ (ctx : Ctx) (now : Nat) (k : String) (t : Nat),
        (k, some t) ∈ ctx.timers → t ≠ 0 → t ≤ now →
        ∃ k', check_expired ctx now = some k' ∧
          ∃ t', (k', some t') ∈ ctx.timers ∧ t' ≠ 0 ∧ t' ≤ now) ∧
    (∀ (ctx : Ctx) (now : Nat) (k : String),
        check_expired ctx now = some k →
        ∃ t, (k, some t) ∈ ctx.timers ∧ t ≠ 0 ∧ t ≤ now) ∧
    (∀ (ctx : Ctx) (k : String),
        getAssoc (clear_timer ctx k).timers k = Option.none) ∧
    (∀ (ctx : Ctx) (k : String) (secs now : Nat),
        getAssoc (set_timer ctx k secs now).timers k = some (some (now + secs))) := by
  refine ⟨?_, ?_, ?_, ?_⟩
  · intro ctx now k t hmem ht hle
    have hs := check_expired_isSome_of_due hmem ht hle
    rcases Option.isSome_iff_exists.mp hs with ⟨k', hk'⟩
    exact ⟨k', hk', check_expired_sound hk'⟩
  · intro ctx now k h
    exact check_expired_sound h
  · intro ctx k
    exact getAssoc_delAssoc_self ctx.timers k
  · intro ctx k secs now
    exact getAssoc_setAssoc_self ctx.timers k _

/-- C8 amended witness: a concrete context with one due timer. -/
theorem C8_timer_expiry_amended_witness :
    (∃ k', check_expired { timers := [("X", some 5)] } 10 = some k' ∧
      ∃ t', (k', some t') ∈ ({ timers := [("X", some 5)] } : Ctx).timers ∧
        t' ≠ 0 ∧ t' ≤ 10) ∧
    getAssoc (clear_timer { timers := [("X", some 5)] } "X").timers "X" = Option.none :=
  ⟨C8_timer_expiry_amended.1 { timers := [("X", some 5)] } 10 "X" 5
      (by simp) (by decide) (by decide),
   C8_timer_expiry_amended.2.2.1 { timers := [("X", some 5)] } "X"⟩

/-- C10 counterexample: the round-trip is claimed for every context, but a
pre-existing due timer breaks it: with prior timers X and Y both due,
`set(ctx, "X", 5, 100)` overwrites X in place, and `checkExpired(ctx, 104)`
returns `"Y"` (not none) while `checkExpired(ctx, 106)` also returns `"Y"`
(not `"X"`, since `expired[-1]` picks the last due entry in insertion
order). -/
theorem C10_counterexample :
    check_expired (set_timer { timers := [("X", some 1), ("Y", some 1)] } "X" 5 100) 104
      = some "Y" ∧
    check_expired (set_timer { timers := [("X", some 1), ("Y", some 1)] } "X" 5 100) 106
      = some "Y" :=
  ⟨rfl, rfl⟩

/-- C10 amended: the timer round-trip holds for every context none of whose
other timer entries holds a truthy expiry: after `set(ctx, "X", 5, t0)`,
`checkExpired` at `t0+4` returns none, at `t0+6` returns `"X"`, and after
`clear(ctx, "X")` every subsequent check returns none. -/
theorem C10_timer_roundtrip_amended (ctx : Ctx) (t0 : Nat)
    (hothers : ∀ p ∈ ctx.timers, p.1 ≠ "X" → timerTruthy (some p.2) = false) :
    check_expired (set_timer ctx "X" 5 t0) (t0 + 4) = Option.none ∧
    check_expired (set_timer ctx "X" 5 t0) (t0 + 6) = some "X" ∧
    ∀ n, check_expired (clear_timer (set_timer ctx "X" 5 t0) "X") n = Option.none := by
  refine ⟨?_, ?_, ?_⟩
  · apply check_expired_eq_none
    intro p hp
    rcases mem_setAssoc hp with hX | ⟨hmem, hne⟩
    · subst hX
      simp only [dueAt]
      have : ¬ (t0 + 4 ≥ t0 + 5) := by omega
      simp [this]
    · exact dueAt_false_of_notTruthy _ _
        (hothers p hmem (by simpa [beq_eq_false_iff_ne] using hne))
  · have hmemX : ("X", some (t0 + 5)) ∈ (set_timer ctx "X" 5 t0).timers :=
      self_mem_setAssoc ctx.timers "X" (some (t0 + 5))
    have hs := @check_expired_isSome_of_due (set_timer ctx "X" 5 t0) (t0 + 6)
      "X" (t0 + 5) hmemX (by omega) (by omega)
    rcases Option.isSome_iff_exists.mp hs with ⟨k', hk'⟩
    rcases check_expired_sound hk' with ⟨t', hmem', ht', hle'⟩
    rcases mem_setAssoc hmem' with hX | ⟨hmem'', hne⟩
    · have : k' = "X" := congrArg Prod.fst hX
      rw [this] at hk'
      exact hk'
    · have hfalse := hothers _ hmem'' (by simpa [beq_eq_false_iff_ne] using hne)
      simp only [timerTruthy, bne_iff_ne, ne_eq] at hfalse
      simp at hfalse
      exact absurd hfalse ht'
  · intro n
    apply check_expired_eq_none
    intro p hp
    rcases mem_delAssoc hp with ⟨hmem, hne⟩
    rcases mem_setAssoc hmem with hX | ⟨hmem', _⟩
    · exact absurd (congrArg Prod.fst hX) (by simpa [beq_eq_false_iff_ne] using hne)
    · exact dueAt_false_of_notTruthy _ _
        (hothers p hmem' (by simpa [beq_eq_false_iff_ne] using hne))

/-- C10 amended witness: the round-trip on a fresh context, with the clear
checked at the concrete instant 10. -/
theorem C10_timer_roundtrip_amended_witness :
    check_expired (set_timer {} "X" 5 0) 4 = Option.none ∧
    check_expired (set_timer {} "X" 5 0) 6 = some "X" ∧
    check_expired (clear_timer (set_timer {} "X" 5 0) "X") 10 = Option.none :=
  ⟨(C10_timer_roundtrip_amended {} 0 (by simp)).1,
   (C10_timer_roundtrip_amended {} 0 (by simp)).2.1,
   (C10_timer_roundtrip_amended {} 0 (by simp)).2.2 10⟩

/-- C4 counterexample: the claim says every tick with an expired timer gets a
synthesized system signal mapped 1:1 to the expired timer's name.  But
`check_timeouts_node` only maps the three names PRINTING, CARD_PICKUP and
OTP_no_input: on a tick whose expired timer is named `"FOO"`, the timer is
cleared yet no signal is synthesized (the input is left untouched). -/
theorem C4_counterexample :
    check_expired ({ timers := [("FOO", some 1)] } : Ctx) 2 = some "FOO" ∧
    (check_timeouts_node [] 0
        { state := "HOME", ctx := { timers := [("FOO", some 1)] }, now := 2 }).input
      = ({} : Input) ∧
    (check_timeouts_node [] 0
        { state := "HOME", ctx := { timers := [("FOO", some 1)] }, now := 2 }).ctx.timers
      = [] :=
  ⟨rfl, rfl, rfl⟩

/-- C4 amended: on every tick in which some timer is expired (after the
OTP-timer arm/clear prologue), at most one expiry is surfaced —
`check_expired` itself removes nothing.  An expired timer whose name is the
empty string is treated as no expiry by the `if not expired` truthiness test:
the node returns with neither a signal nor a clearing.  For every other
expired name the node clears exactly the consumed entry, and a system-channel
signal is synthesized only for the three known timer names
(`PRINTING ↦ _timeout_PRINTING`, `CARD_PICKUP ↦ _timeout_CARD_PICKUP`,
`OTP_no_input ↦ _timeout_no_input`); any other expired timer name is cleared
without touching the input. -/
theorem C4_timeout_surfacing_amended (timeouts : TimeoutTable) (wall : Nat)
    (s : OState) (e : String)
    (h : check_expired (otpArmPhase timeouts s.state s.ctx (nowOf wall s))
          (nowOf wall s) = some e) :
    (e = "" →
      check_timeouts_node timeouts wall s =
        { s with
          now := nowOf wall s
          ctx := otpArmPhase timeouts s.state s.ctx (nowOf wall s) }) ∧
    (e ≠ "" →
      (check_timeouts_node timeouts wall s).ctx =
        clear_timer (otpArmPhase timeouts s.state s.ctx (nowOf wall s)) e ∧
      (e = "PRINTING" →
        (check_timeouts_node timeouts wall s).input = sysInput "_timeout_PRINTING") ∧
      (e = "CARD_PICKUP" →
        (check_timeouts_node timeouts wall s).input = sysInput "_timeout_CARD_PICKUP") ∧
      (e = "OTP_no_input" →
        (check_timeouts_node timeouts wall s).input = sysInput "_timeout_no_input") ∧
      (e ≠ "PRINTING" → e ≠ "CARD_PICKUP" → e ≠ "OTP_no_input" →
        (check_timeouts_node timeouts wall s).input = s.input)) := by
  unfold check_timeouts_node
  dsimp only
  rw [h]
  dsimp only
  constructor
  · intro he
    subst he
    rw [if_pos rfl]
  · intro hemp
    rw [if_neg hemp]
    refine ⟨rfl, ?_, ?_, ?_, ?_⟩
    · intro he; subst he; rfl
    · intro he; subst he; rfl
    · intro he; subst he; rfl
    · intro h1 h2 h3
      have b1 : (e == "PRINTING") = false := by simpa [beq_eq_false_iff_ne] using h1
      have b2 : (e == "CARD_PICKUP") = false := by simpa [beq_eq_false_iff_ne] using h2
      have b3 : (e == "OTP_no_input") = false := by simpa [beq_eq_false_iff_ne] using h3
      simp [b1, b2, b3]

/-- C4 amended witness: a tick whose expired timer is PRINTING gets the
`_timeout_PRINTING` system signal and the timer cleared. -/
theorem C4_timeout_surfacing_amended_witness :
    (check_timeouts_node [] 0
        { state := "HOME", ctx := { timers := [("PRINTING", some 1)] }, now := 2 }).input
      = sysInput "_timeout_PRINTING" ∧
    (check_timeouts_node [] 0
        { state := "HOME", ctx := { timers := [("PRINTING", some 1)] }, now := 2 }).ctx
      = clear_timer { timers := [("PRINTING", some 1)] } "PRINTING" :=
  ⟨((C4_timeout_surfacing_amended [] 0
      { state := "HOME", ctx := { timers := [("PRINTING", some 1)] }, now := 2 }
      "PRINTING" rfl).2 (by decide)).2.1 rfl,
   ((C4_timeout_surfacing_amended [] 0
      { state := "HOME", ctx := { timers := [("PRINTING", some 1)] }, now := 2 }
      "PRINTING" rfl).2 (by decide)).1⟩

/-- C1: transition resolution precedence in the decide phase.  A set
(non-empty) signal that is a key of the state's rule set wins; otherwise the
Decision's intent key; otherwise the `_auto` key; and when no rule resolves,
`decide_node` sets the action list to exactly the default navigate-to-home UI
action and forces the state to `FAILED`. -/
theorem C1_transition_resolution_precedence :
    (∀ (sr : List (String × Rule)) (sg : String) (intent : Option String) (r : Rule),
        sg ≠ "" → getAssoc sr sg = some r →
        resolve_trans sr (some sg) intent = some r) ∧
    (∀ (sr : List (String × Rule)) (signal intent : Option String) (i : String) (r : Rule),
        (∀ sg, signal = some sg → sg = "" ∨ getAssoc sr sg = Option.none) →
        intent = some i → getAssoc sr i = some r →
        resolve_trans sr signal intent = some r) ∧
    (∀ (sr : List (String × Rule)) (signal intent : Option String) (r : Rule),
        (∀ sg, signal = some sg → sg = "" ∨ getAssoc sr sg = Option.none) →
        (∀ i, intent = some i → getAssoc sr i = Option.none) →
        getAssoc sr "_auto" = some r →
        resolve_trans sr signal intent = some r) ∧
    (∀ (rules : RuleTable) (timeouts : TimeoutTable) (s : OState),
        resolve_trans (stateRulesOf rules s.state) s.input.signal (intentKey s.decision)
          = Option.none →
        decide_node rules timeouts s =
          .ok { s with actions := [backHomeAction], state := "FAILED" }) := by
  refine ⟨?_, ?_, ?_, ?_⟩
  · intro sr sg intent r hne hget
    simp [resolve_trans, bne_iff_ne, hne, hget]
  · intro sr signal intent i r hsig hint hget
    subst hint
    cases signal with
    | none => simp [resolve_trans, hget]
    | some sg =>
        rcases hsig sg rfl with he | hn
        · simp [resolve_trans, he, hget]
        · simp [resolve_trans, hn, hget]
  · intro sr signal intent r hsig hint hget
    cases signal with
    | none =>
        cases intent with
        | none => simp [resolve_trans, hget]
        | some i => simp [resolve_trans, hint i rfl, hget]
    | some sg =>
        rcases hsig sg rfl with he | hn
        · cases intent with
          | none => simp [resolve_trans, he, hget]
          | some i => simp [resolve_trans, he, hint i rfl, hget]
        · cases intent with
          | none => simp [resolve_trans, hn, hget]
          | some i => simp [resolve_trans, hn, hint i rfl, hget]
  · intro rules timeouts s h
    unfold decide_node
    dsimp only
    rw [h]

/-- C1 witness: the signal key is selected ahead of an `_auto` rule, and a
state with an empty rule set fails to the home screen. -/
theorem C1_transition_resolution_precedence_witness :
    resolve_trans [("sig", { «to» := some "A" }), ("_auto", { «to» := some "C" })]
        (some "sig") (some "other") = some { «to» := some "A" } ∧
    decide_node [] [] { state := "S" } =
      .ok { state := "FAILED", actions := [backHomeAction] } :=
  ⟨C1_transition_resolution_precedence.1
      [("sig", { «to» := some "A" }), ("_auto", { «to» := some "C" })]
      "sig" (some "other") { «to» := some "A" } (by decide) rfl,
   C1_transition_resolution_precedence.2.2.2 [] [] { state := "S" } rfl⟩

/-- C2: guard contract for every selected rule.  Guard false with a fallback:
new state is the fallback's target (defaulting to the current state) and the
actions are the fallback's actions, with the session context untouched;
guard false without fallback: state and context stay unchanged and the
actions are the rule's primary action list; guard absent or true: the
after-effect is applied to the session context exactly once, the actions are
the rule's action list, and the target state is the rule's `to` field,
defaulting to staying in the current state (the context additionally receives
the OTP idle-timer coupling of the state change). -/
theorem C2_guard_contract (rules : RuleTable) (timeouts : TimeoutTable)
    (s : OState) (tr : Rule)
    (hres : resolve_trans (stateRulesOf rules s.state) s.input.signal (intentKey s.decision)
      = some tr) :
    (∀ g fb, tr.guard = some g → eval_guard (some g) s.ctx = .ok false →
        tr.fallback = some fb →
        decide_node rules timeouts s =
          .ok { s with actions := fb.actions, state := fb.«to».getD s.state }) ∧
    (∀ g, tr.guard = some g → eval_guard (some g) s.ctx = .ok false →
        tr.fallback = Option.none →
        decide_node rules timeouts s =
          .ok { s with actions := tr.actions, state := s.state }) ∧
    (∀ ctx1, tr.guard = Option.none →
        apply_after tr.after s.ctx = .ok ctx1 →
        decide_node rules timeouts s =
          .ok { s with
                actions := tr.actions
                ctx := otpCouple timeouts s.state (tr.«to».getD s.state) s.now ctx1
                state := tr.«to».getD s.state }) ∧
    (∀ g ctx1, tr.guard = some g → eval_guard (some g) s.ctx = .ok true →
        apply_after tr.after s.ctx = .ok ctx1 →
        decide_node rules timeouts s =
          .ok { s with
                actions := tr.actions
                ctx := otpCouple timeouts s.state (tr.«to».getD s.state) s.now ctx1
                state := tr.«to».getD s.state }) := by
  refine ⟨?_, ?_, ?_, ?_⟩
  · intro g fb hg hev hfb
    unfold decide_node
    dsimp only
    rw [hres]
    dsimp only
    rw [hg, hev, hfb]
  · intro g hg hev hfb
    unfold decide_node
    dsimp only
    rw [hres]
    dsimp only
    rw [hg, hev, hfb]
  · intro ctx1 hg hafter
    unfold decide_node
    dsimp only
    rw [hres]
    dsimp only
    rw [hg]
    show ((match apply_after tr.after s.ctx with
      | Except.error e => Except.error e
      | Except.ok c =>
          Except.ok { s with
            actions := tr.actions
            ctx := otpCouple timeouts s.state (tr.«to».getD s.state) s.now c
            state := tr.«to».getD s.state }) : Except String OState) = _
    rw [hafter]
  · intro g ctx1 hg hev hafter
    unfold decide_node
    dsimp only
    rw [hres]
    dsimp only
    rw [hg, hev]
    show ((match apply_after tr.after s.ctx with
      | Except.error e => Except.error e
      | Except.ok c =>
          Except.ok { s with
            actions := tr.actions
            ctx := otpCouple timeouts s.state (tr.«to».getD s.state) s.now c
            state := tr.«to».getD s.state }) : Except String OState) = _
    rw [hafter]

/-- Concrete rules used to witness the C2 guard contract. -/
def c2RuleTrue : Rule where
  guard := some (.lit (.bool true))
  after := some (.assign "hit" (.lit (.int 1)))
  actions := [{ type := "ui", name := "ask", args := [] }]
  «to» := some "T"

/-- Concrete false-guard rule with a fallback used to witness C2. -/
def c2RuleFallback : Rule where
  guard := some (.lit (.bool false))
  actions := [{ type := "ui", name := "ask", args := [] }]
  «to» := some "T"
  fallback := some { actions := [{ type := "ui", name := "apology", args := [] }], «to» := some "F" }

/-- C2 witness: a true-guard rule runs its after-effect and moves to its
target, and a false-guard rule with a fallback takes the fallback. -/
theorem C2_guard_contract_witness :
    decide_node [("S", [("go", c2RuleTrue)])] [] { state := "S", input := { signal := some "go" } } =
      .ok { state := "T", input := { signal := some "go" }, actions := c2RuleTrue.actions, ctx := { fields := [("hit", .int 1)] } } ∧
    decide_node [("S", [("go", c2RuleFallback)])] [] { state := "S", input := { signal := some "go" } } =
      .ok { state := "F", input := { signal := some "go" }, actions := [{ type := "ui", name := "apology", args := [] }] } :=
  ⟨(C2_guard_contract [("S", [("go", c2RuleTrue)])] []
      { state := "S", input := { signal := some "go" } } c2RuleTrue rfl).2.2.2
      (.lit (.bool true)) { fields := [("hit", .int 1)] } rfl rfl rfl,
   (C2_guard_contract [("S", [("go", c2RuleFallback)])] []
      { state := "S", input := { signal := some "go" } } c2RuleFallback rfl).1
      (.lit (.bool false)) { actions := [{ type := "ui", name := "apology", args := [] }], «to» := some "F" }
      rfl rfl rfl⟩

/-- The Decision returned by the strict-mode parse-failure path after the
response-stripping epilogue. -/
def c5Final (e : String) : JValue :=
  .obj [("intent", .str "cancel"), ("params", .obj []),
        ("response", .obj [("type", .str "none"), ("content", .str "")]),
        ("meta", .obj [("error", .str e)])]

theorem strictStage_cannedInvalid (allowed : List String) (e : String) :
    strictStage true allowed (cannedInvalid e) = cannedInvalid e := by
  show (if (!allowed.isEmpty && !allowed.contains "cancel") = true
      then JValue.obj (setAssoc [("intent", JValue.str "cancel"), ("params", JValue.obj []),
            ("response", JValue.obj [("type", JValue.str "text"),
              ("content", JValue.str "Xin lỗi, đầu ra không hợp lệ.")]),
            ("meta", JValue.obj [("error", JValue.str e)])] "intent" (JValue.str "cancel"))
      else JValue.obj [("intent", JValue.str "cancel"), ("params", JValue.obj []),
            ("response", JValue.obj [("type", JValue.str "text"),
              ("content", JValue.str "Xin lỗi, đầu ra không hợp lệ.")]),
            ("meta", JValue.obj [("error", JValue.str e)])]) = cannedInvalid e
  by_cases hb : (!allowed.isEmpty && !allowed.contains "cancel") = true
  · rw [if_pos hb]; rfl
  · rw [if_neg hb]; rfl

/-- C5 counterexample: the claim says a parse failure yields a canned Decision
whose response has type `"text"` and carries the invalid-output message.  On a
concrete strict-mode call whose body holds no extractable JSON, the canned
invalid-output Decision is built but the final response-stripping step
overwrites its response to type `"none"` with empty content before `decide`
returns. -/
theorem C5_counterexample :
    LLMDecider_decide true ["others"] (.ok (.obj [("response", .str "plain text")]))
        (fun _ => .error "No JSON found in LLM response")
      = .ok (c5Final "No JSON found in LLM response") ∧
    decisionResponse (c5Final "No JSON found in LLM response")
      = some (.obj [("type", .str "none"), ("content", .str "")]) ∧
    ("none" : String) ≠ "text" :=
  ⟨rfl, rfl, by decide⟩

/-- C5 amended: in strict mode (the configuration default) no failure path
raises — every call returns a well-formed Decision — and a parse failure
(no machine-extractable JSON, or extraction error) yields a canned Decision
with intent `"cancel"` and meta carrying the error, whose response is however
stripped to type `"none"` with empty content by the final response-stripping
step rather than carrying the invalid-output text. -/
theorem C5_parse_degradation_amended :
    (∀ (allowed : List String) (postResult : Except String JValue)
       (extract : String → Except String JValue),
        ∃ d, LLMDecider_decide true allowed postResult extract = .ok d) ∧
    (∀ (allowed : List String) (sTxt e : String)
       (extract : String → Except String JValue),
        extract sTxt = .error e →
        LLMDecider_decide true allowed (.ok (.obj [("response", .str sTxt)])) extract
          = .ok (c5Final e) ∧
        decisionIntent (c5Final e) = some (.str "cancel") ∧
        decisionMeta (c5Final e) = some (.obj [("error", .str e)]) ∧
        decisionResponse (c5Final e) = some (.obj [("type", .str "none"), ("content", .str "")])) := by
  constructor
  · intro allowed postResult extract
    cases postResult with
    | error e => exact ⟨_, rfl⟩
    | ok data =>
        rcases strictStage_true_obj allowed (rawDecision (respTextOf data) extract) with ⟨fs, hfs⟩
        rcases finalizeResponse_obj_ok fs with ⟨d, hd⟩
        refine ⟨d, ?_⟩
        show finalizeResponse (strictStage true allowed (rawDecision (respTextOf data) extract))
          = .ok d
        rw [hfs]
        exact hd
  · intro allowed sTxt e extract hx
    refine ⟨?_, rfl, rfl, rfl⟩
    show finalizeResponse (strictStage true allowed
        (rawDecision (respTextOf (.obj [("response", .str sTxt)])) extract)) = .ok (c5Final e)
    have h1 : rawDecision (respTextOf (.obj [("response", .str sTxt)])) extract
        = cannedInvalid e := by
      show (match extract sTxt with
        | Except.ok d => d
        | Except.error err => cannedInvalid err) = cannedInvalid e
      rw [hx]
    rw [h1, strictStage_cannedInvalid]
    rfl

/-- C5 amended witness: a concrete strict-mode call with failing extraction. -/
theorem C5_parse_degradation_amended_witness :
    LLMDecider_decide true ["a"] (.ok (.obj [("response", .str "zz")]))
        (fun _ => .error "E") = .ok (c5Final "E") ∧
    decisionIntent (c5Final "E") = some (.str "cancel") ∧
    decisionMeta (c5Final "E") = some (.obj [("error", .str "E")]) ∧
    decisionResponse (c5Final "E") = some (.obj [("type", .str "none"), ("content", .str "")]) :=
  C5_parse_degradation_amended.2 ["a"] "zz" "E" (fun _ => .error "E") rfl

/-- A schema-valid extracted decision with a disallowed intent and no meta. -/
def c6Extracted : JValue :=
  .obj [("intent", .str "hello"), ("params", .obj []),
        ("response", .obj [("type", .str "text"), ("content", .str "ok")])]

/-- C6 counterexample: the claim says a disallowed intent is forced to
`"cancel"` with meta annotated with the reason.  On a concrete strict-mode
call returning a schema-valid decision with intent `"hello"` against allowlist
`["balance"]`, the engine's decider (`LLMDecider.py`) forces the intent to
`"cancel"` but attaches no meta annotation at all. -/
theorem C6_counterexample :
    LLMDecider_decide true ["balance"] (.ok (.obj [("response", .str "j")]))
        (fun _ => .ok c6Extracted)
      = .ok (.obj [("intent", .str "cancel"), ("params", .obj []),
            ("response", .obj [("type", .str "none"), ("content", .str "")])]) ∧
    decisionMeta (.obj [("intent", .str "cancel"), ("params", .obj []),
            ("response", .obj [("type", .str "none"), ("content", .str "")])])
      = Option.none :=
  ⟨rfl, rfl⟩

theorem finalizeResponse_setsResponse (fs : List (String × JValue)) :
    ∃ X, finalizeResponse (.obj fs) = .ok (.obj (setAssoc fs "response" X)) := by
  unfold finalizeResponse
  dsimp only
  rcases h : jGet fs "response" with _ | v
  · exact ⟨_, rfl⟩
  · cases v <;> exact ⟨_, rfl⟩

/-- C6 amended: in the decider the engine instantiates (`LLMDecider.py`),
coercion runs only in strict mode after schema validation passes.  A
missing or non-object `params` fails schema validation, and any strict-mode
validation failure replaces the whole decision with the canned invalid-output
Decision (which has intent `"cancel"` and empty params).  A schema-valid
decision whose intent is not in a non-empty allowlist has its intent forced
to `"cancel"` with no meta annotation; and with strict mode disabled no
coercion is applied at all — intent and params pass through unchanged. -/
theorem C6_coercion_amended :
    (∀ (allowed : List String) (sTxt : String)
       (extract : String → Except String JValue)
       (fs ps rs : List (String × JValue)) (i : String),
        extract sTxt = .ok (.obj fs) →
        validateDecision (.obj fs) = true →
        jGet fs "params" = some (.obj ps) →
        jGet fs "response" = some (.obj rs) →
        jGet fs "intent" = some (.str i) →
        allowed ≠ [] → allowed.contains i = false →
        ∃ d, LLMDecider_decide true allowed (.ok (.obj [("response", .str sTxt)])) extract
            = .ok d ∧
          decisionIntent d = some (.str "cancel") ∧
          decisionMeta d = jGet fs "meta") ∧
    (∀ (allowed : List String) (sTxt : String)
       (extract : String → Except String JValue) (fs : List (String × JValue)),
        extract sTxt = .ok (.obj fs) →
        ∃ d, LLMDecider_decide false allowed (.ok (.obj [("response", .str sTxt)])) extract
            = .ok d ∧
          decisionIntent d = jGet fs "intent" ∧
          decisionParams d = jGet fs "params") ∧
    (∀ fs : List (String × JValue),
        jGet fs "params" = Option.none →
        validateDecision (.obj fs) = false) ∧
    (∀ (fs : List (String × JValue)) (v : JValue),
        jGet fs "params" = some v → (∀ ps, v ≠ .obj ps) →
        validateDecision (.obj fs) = false) ∧
    (∀ (allowed : List String) (sTxt : String)
       (extract : String → Except String JValue) (fs : List (String × JValue)),
        extract sTxt = .ok (.obj fs) →
        validateDecision (.obj fs) = false →
        LLMDecider_decide true allowed (.ok (.obj [("response", .str sTxt)])) extract
          = .ok (c5Final "schema: ValidationError") ∧
        decisionIntent (c5Final "schema: ValidationError") = some (.str "cancel") ∧
        decisionParams (c5Final "schema: ValidationError") = some (.obj [])) := by
  refine ⟨?_, ?_, ?_, ?_, ?_⟩
  · intro allowed sTxt extract fs ps rs i hx hv hp hr hi hne hc
    have h1 : rawDecision (respTextOf (.obj [("response", .str sTxt)])) extract = .obj fs := by
      show (match extract sTxt with
        | Except.ok d => d
        | Except.error err => cannedInvalid err) = JValue.obj fs
      rw [hx]
    have hempty : allowed.isEmpty = false := by
      cases allowed with
      | nil => exact absurd rfl hne
      | cons a t => rfl
    have hss : strictStage true allowed (.obj fs)
        = .obj (setAssoc fs "intent" (.str "cancel")) := by
      unfold strictStage
      dsimp only
      rw [hv, hp]
      dsimp only
      rw [hi]
      dsimp only
      rw [hc, hempty]
      rfl
    have hresp2 : jGet (setAssoc fs "intent" (.str "cancel")) "response" = some (.obj rs) := by
      rw [show jGet (setAssoc fs "intent" (.str "cancel")) "response"
          = getAssoc (setAssoc fs "intent" (.str "cancel")) "response" from rfl]
      rw [getAssoc_setAssoc_ne fs "intent" "response" _ (by decide)]
      exact hr
    refine ⟨.obj (setAssoc (setAssoc fs "intent" (.str "cancel")) "response"
        (.obj (setAssoc (setAssoc rs "type" (.str "none")) "content" (.str "")))), ?_, ?_, ?_⟩
    · show finalizeResponse (strictStage true allowed
          (rawDecision (respTextOf (.obj [("response", .str sTxt)])) extract)) = _
      rw [h1, hss]
      unfold finalizeResponse
      dsimp only
      rw [hresp2]
    · show jGet (setAssoc (setAssoc fs "intent" (.str "cancel")) "response" _) "intent" = _
      rw [show ∀ l X, jGet (setAssoc l "response" X) "intent"
          = getAssoc (setAssoc l "response" X) "intent" from fun _ _ => rfl]
      rw [getAssoc_setAssoc_ne _ "response" "intent" _ (by decide)]
      exact getAssoc_setAssoc_self fs "intent" _
    · show jGet (setAssoc (setAssoc fs "intent" (.str "cancel")) "response" _) "meta" = _
      rw [show ∀ l X, jGet (setAssoc l "response" X) "meta"
          = getAssoc (setAssoc l "response" X) "meta" from fun _ _ => rfl]
      rw [getAssoc_setAssoc_ne _ "response" "meta" _ (by decide)]
      exact getAssoc_setAssoc_ne fs "intent" "meta" _ (by decide)
  · intro allowed sTxt extract fs hx
    have h1 : rawDecision (respTextOf (.obj [("response", .str sTxt)])) extract = .obj fs := by
      show (match extract sTxt with
        | Except.ok d => d
        | Except.error err => cannedInvalid err) = JValue.obj fs
      rw [hx]
    rcases finalizeResponse_setsResponse fs with ⟨X, hfin⟩
    refine ⟨.obj (setAssoc fs "response" X), ?_, ?_, ?_⟩
    · show finalizeResponse (strictStage false allowed
          (rawDecision (respTextOf (.obj [("response", .str sTxt)])) extract)) = _
      rw [h1]
      exact hfin
    · show jGet (setAssoc fs "response" X) "intent" = jGet fs "intent"
      exact getAssoc_setAssoc_ne fs "response" "intent" _ (by decide)
    · show jGet (setAssoc fs "response" X) "params" = jGet fs "params"
      exact getAssoc_setAssoc_ne fs "response" "params" _ (by decide)
  · intro fs h
    unfold validateDecision
    dsimp only
    rw [h]
    simp
  · intro fs v h hvno
    unfold validateDecision
    dsimp only
    rw [h]
    cases v with
    | obj ps => exact absurd rfl (hvno ps)
    | null => simp
    | bool b => simp
    | num n => simp
    | str s2 => simp
    | arr xs => simp
  · intro allowed sTxt extract fs hx hv
    have h1 : rawDecision (respTextOf (.obj [("response", .str sTxt)])) extract = .obj fs := by
      show (match extract sTxt with
        | Except.ok d => d
        | Except.error err => cannedInvalid err) = JValue.obj fs
      rw [hx]
    have hss : strictStage true allowed (.obj fs) = cannedSchema := by
      unfold strictStage
      dsimp only
      rw [hv]
      rfl
    refine ⟨?_, rfl, rfl⟩
    show finalizeResponse (strictStage true allowed
        (rawDecision (respTextOf (.obj [("response", .str sTxt)])) extract))
      = .ok (c5Final "schema: ValidationError")
    rw [h1, hss]
    rfl

/-- C6 amended witness: a concrete strict-mode call whose valid decision has a
disallowed intent gets it forced to cancel with the (absent) meta unchanged;
the same decision under strict mode off keeps its intent untouched; and a
concrete decision lacking `params` fails validation and is replaced by the
canned invalid-output Decision. -/
theorem C6_coercion_amended_witness :
    (∃ d, LLMDecider_decide true ["balance"] (.ok (.obj [("response", .str "j")]))
        (fun _ => .ok c6Extracted) = .ok d ∧
      decisionIntent d = some (.str "cancel") ∧
      decisionMeta d = jGet [("intent", .str "hello"), ("params", .obj []),
          ("response", .obj [("type", .str "text"), ("content", .str "ok")])] "meta") ∧
    (∃ d, LLMDecider_decide false ["balance"] (.ok (.obj [("response", .str "j")]))
        (fun _ => .ok c6Extracted) = .ok d ∧
      decisionIntent d = jGet [("intent", .str "hello"), ("params", .obj []),
          ("response", .obj [("type", .str "text"), ("content", .str "ok")])] "intent" ∧
      decisionParams d = jGet [("intent", .str "hello"), ("params", .obj []),
          ("response", .obj [("type", .str "text"), ("content", .str "ok")])] "params") ∧
    validateDecision (.obj [("intent", .str "x"),
        ("response", .obj [("type", .str "text"), ("content", .str "y")])]) = false ∧
    LLMDecider_decide true ["balance"] (.ok (.obj [("response", .str "q")]))
        (fun _ => .ok (.obj [("intent", .str "x"),
            ("response", .obj [("type", .str "text"), ("content", .str "y")])]))
      = .ok (c5Final "schema: ValidationError") :=
  ⟨C6_coercion_amended.1 ["balance"] "j" (fun _ => .ok c6Extracted)
      [("intent", .str "hello"), ("params", .obj []),
       ("response", .obj [("type", .str "text"), ("content", .str "ok")])]
      [] [("type", .str "text"), ("content", .str "ok")] "hello"
      rfl rfl rfl rfl rfl (by simp) rfl,
   C6_coercion_amended.2.1 ["balance"] "j" (fun _ => .ok c6Extracted)
      [("intent", .str "hello"), ("params", .obj []),
       ("response", .obj [("type", .str "text"), ("content", .str "ok")])] rfl,
   C6_coercion_amended.2.2.1
      [("intent", .str "x"), ("response", .obj [("type", .str "text"), ("content", .str "y")])]
      rfl,
   (C6_coercion_amended.2.2.2.2 ["balance"] "q"
      (fun _ => .ok (.obj [("intent", .str "x"),
          ("response", .obj [("type", .str "text"), ("content", .str "y")])]))
      [("intent", .str "x"), ("response", .obj [("type", .str "text"), ("content", .str "y")])]
      rfl rfl).1⟩

end Teller
